import Mathlib

/-!
Verification of `vizro/actions/parameter_action.py` (class `ParameterAction`).

Shallow embedding: target strings and model identifiers are lists of
characters, Python exceptions become an explicit error type, and the
module-level `model_manager` registry becomes an explicit record of lookup
functions passed to each operation.  Python dictionaries produced by the
`inputs`/`outputs` properties are modelled as association lists with the
insertion semantics of CPython dicts (first occurrence fixes the key
position, a later insert with the same key overwrites the value in place).
-/

set_option autoImplicit false

namespace Vizro

/-- A Python string used as a model id, page id, or raw target string. -/
abbrev MId := List Char

/-- The exceptions `ParameterAction` code can raise, plus the failure mode the
spec assigns to recomputation.  `valueMalformed` is the
`ValueError("Invalid target ...")` for a target without a separator;
`valueForeign` is the `ValueError("Component '<id>' does not exist on the
page '<page>'")`; `typeNoneNotIterable` is the `TypeError` from iterating
`None` when `self._arguments.get("targets")` finds no key; `keyError` is a
failed registry subscript `model_manager[...]`; `unsupportedArgumentPath` is
the recomputation failure mode the spec gives the figure-update engine. -/
inductive PyError where
  | valueMalformed (target : MId)
  | valueForeign (componentId : MId) (pageId : Option MId)
  | typeNoneNotIterable
  | keyError (id : Option MId)
  | unsupportedArgumentPath (componentId : MId) (path : MId)
  deriving DecidableEq, Repr

/-- Whether a target-validation error (raised by `_post_init`) is at hand, as
opposed to a registry or recomputation error. -/
def PyError.isTargetValidation : PyError → Bool
  | .valueMalformed _ => true
  | .valueForeign _ _ => true
  | _ => false

/-- Python `"." in target` (the separator is a single character, so substring
containment is character containment). -/
def hasDot : MId → Bool
  | [] => false
  | c :: cs => c = '.' || hasDot cs

/-- Python `target.split(".")[0]`: the characters before the first `'.'`
(the whole string when no separator occurs). -/
def headSegment : MId → MId
  | [] => []
  | c :: cs => if c = '.' then [] else c :: headSegment cs

/-- The characters after the first `'.'`: the argument-path remainder of a
target string (empty when no separator occurs). -/
def tailSegment : MId → MId
  | [] => []
  | c :: cs => if c = '.' then cs else tailSegment cs

/-- A target string parsed as the spec describes: component id before the
first separator, argument path after it. -/
def parseTarget (t : MId) : MId × MId := (headSegment t, tailSegment t)

/-- The slice of the process-wide `model_manager` that `ParameterAction`
uses: `_get_model_page_id` (the page owning a model, `none` when the model is
on no page) and the `_output_component_property` attribute of a looked-up
model instance. -/
structure ModelManager where
  pageOf : MId → Option MId
  outputPropOf : MId → MId

/-- The state of a built `ParameterAction`: its action id, the `_page_id`
computed by `_post_init`, and the validated `targets` list. -/
structure ParameterAction where
  action_id : MId
  page_id : Option MId
  targets : List MId
  deriving DecidableEq, Repr

/-- The body of the validation loop of `_post_init` for one target: a target
without a separator raises the malformed-target `ValueError`; otherwise the
component id before the first separator must be owned by the action's page,
else the foreign-component `ValueError` is raised. -/
def validateTarget (mm : ModelManager) (pageId : Option MId) (t : MId) :
    Option PyError :=
  if hasDot t = false then some (.valueMalformed t)
  else if pageId ≠ mm.pageOf (headSegment t) then
    some (.valueForeign (headSegment t) pageId)
  else none

/-- The validation loop of `_post_init`: targets are checked in order and the
first failure is raised. -/
def validateTargets (mm : ModelManager) (pageId : Option MId) :
    List MId → Option PyError
  | [] => none
  | t :: ts =>
    match validateTarget mm pageId t with
    | some e => some e
    | none => validateTargets mm pageId ts

/-- The dictionary key `"targets"` looked up in `self._arguments`. -/
def targetsKey : MId := "targets".toList

/-- `ParameterAction._post_init`: computes `_page_id` from the registry,
reads `self._arguments.get("targets")` (iterating the `None` returned for a
missing key raises a `TypeError`), validates every target in order, and
stores the raw target list on success. -/
def ParameterAction.postInit (mm : ModelManager) (actionId : MId)
    (arguments : MId → Option (List MId)) : Except PyError ParameterAction :=
  match arguments targetsKey with
  | none => .error .typeNoneNotIterable
  | some targets =>
    match validateTargets mm (mm.pageOf actionId) targets with
    | some e => .error e
    | none => .ok ⟨actionId, mm.pageOf actionId, targets⟩

/-- A Dash `Output` descriptor as constructed by the `outputs` property:
`Output(component_id=..., component_property=..., allow_duplicate=...)`. -/
structure Output where
  component_id : MId
  component_property : MId
  allow_duplicate : Bool
  deriving DecidableEq, Repr

/-- A Dash `State` reactive-input descriptor. -/
structure DashState where
  component_id : MId
  component_property : MId
  deriving DecidableEq, Repr

/-- A value of the dictionary built by the `inputs` property: the three
page-scanning helpers return collections of descriptors, the theme toggle is
a single `State`. -/
inductive InputVal where
  | many (l : List DashState)
  | single (s : DashState)
  deriving DecidableEq, Repr

/-- Insertion into a CPython dict modelled as an association list: an
existing key keeps its position and gets the new value, a new key is
appended. -/
def pydictInsert {κ ν : Type} [DecidableEq κ] :
    List (κ × ν) → κ → ν → List (κ × ν)
  | [], k, v => [(k, v)]
  | (k', v') :: rest, k, v =>
    if k' = k then (k', v) :: rest else (k', v') :: pydictInsert rest k v

/-- The dict comprehension `{key x: val x for x in xs}`. -/
def pydictOfList {α κ ν : Type} [DecidableEq κ] (key : α → κ) (val : α → ν)
    (xs : List α) : List (κ × ν) :=
  xs.foldl (fun d x => pydictInsert d (key x) (val x)) []

/-- `ParameterAction.outputs`: recomputes the component id of every target by
`target.split(".")[0]` and builds the dict comprehension
`{target: Output(component_id=target, component_property=
model_manager[target]._output_component_property, allow_duplicate=True)
for target in target_ids}`. -/
def ParameterAction.outputs (mm : ModelManager) (a : ParameterAction) :
    List (MId × Output) :=
  let target_ids := a.targets.map headSegment
  pydictOfList (fun target => target)
    (fun target => ⟨target, mm.outputPropOf target, true⟩) target_ids

/-- The collaborators the `inputs` property uses: `model_manager[page_id]`
(a failed subscript raises `KeyError`), and the three page-scanning helpers
`_get_inputs_of_filters`, `_get_inputs_of_figure_interactions`,
`_get_inputs_of_parameters`, abstracted as functions of the page. -/
structure CallbackEnv (Page : Type) where
  getPage : Option MId → Option Page
  inputsOfFilters : Page → List DashState
  inputsOfInteractions : Page → List DashState
  inputsOfParameters : Page → List DashState

/-- `ParameterAction.inputs`: subscripts the registry with `self._page_id`
and returns the dict literal with the four fixed keys `filters`,
`filter_interaction`, `parameters`, `theme_selector`. -/
def ParameterAction.inputs {Page : Type} (env : CallbackEnv Page)
    (a : ParameterAction) : Except PyError (List (MId × InputVal)) :=
  match env.getPage a.page_id with
  | none => .error (.keyError a.page_id)
  | some page =>
    .ok [("filters".toList, .many (env.inputsOfFilters page)),
         ("filter_interaction".toList, .many (env.inputsOfInteractions page)),
         ("parameters".toList, .many (env.inputsOfParameters page)),
         ("theme_selector".toList, .single ⟨"theme_selector".toList,
            "checked".toList⟩)]

/-- The grouped values `ctx.args_grouping["external"]` that Dash supplies to
an invocation: one group per category, each an opaque collection of
callback-triggered dicts. -/
structure ArgsGrouping (γ : Type) where
  filters : γ
  filter_interaction : γ
  parameters : γ

/-- `ParameterAction.pure_function`: recomputes the head segment of every
target and delegates to `_get_modified_page_figures` (passed explicitly as
`getModified`; it lives outside this excerpt) with the grouped values read
from the Dash callback context.  The `inputs` keyword arguments are received
but never read. -/
def ParameterAction.pure_function {γ δ ρ : Type}
    (getModified : List MId → γ → γ → γ → ρ) (targets : List MId)
    (inputs : List (MId × δ)) (ctx : ArgsGrouping γ) : ρ :=
  getModified (targets.map headSegment) ctx.filters ctx.filter_interaction
    ctx.parameters

/-- The keys of first occurrences, in order, among the elements of a list
whose key is not in `seen`. -/
def distinctFirstFrom {κ : Type} [DecidableEq κ] (seen : List κ) :
    List κ → List κ
  | [] => []
  | x :: xs =>
    if x ∈ seen then distinctFirstFrom seen xs
    else x :: distinctFirstFrom (x :: seen) xs

/-- The distinct elements of a list, each at its first occurrence, in
order. -/
def distinctFirst {κ : Type} [DecidableEq κ] (xs : List κ) : List κ :=
  distinctFirstFrom [] xs

/-- Decidable equality of `Except` results, for evaluating the embedding on
concrete inputs. -/
instance {ε α : Type} [DecidableEq ε] [DecidableEq α] :
    DecidableEq (Except ε α) := fun x y =>
  match x, y with
  | .ok a, .ok b =>
    if h : a = b then .isTrue (by rw [h]) else .isFalse (by simp [h])
  | .error e, .error f =>
    if h : e = f then .isTrue (by rw [h]) else .isFalse (by simp [h])
  | .ok _, .error _ => .isFalse (by simp)
  | .error _, .ok _ => .isFalse (by simp)

/-! ### A concrete page for evaluating the embedding

Components `chart1` and `chart2` and the action `act1` live on page `p1`;
component `other1` lives on page `p2`. -/

/-- A concrete registry. -/
def mmW : ModelManager where
  pageOf := fun id =>
    if id = "chart1".toList ∨ id = "chart2".toList ∨ id = "act1".toList
    then some "p1".toList
    else if id = "other1".toList then some "p2".toList
    else none
  outputPropOf := fun _ => "figure".toList

/-- Arguments with two targets naming the same component `chart1`. -/
def argsDup : MId → Option (List MId) := fun k =>
  if k = targetsKey then some ["chart1.x".toList, "chart1.y".toList]
  else none

/-- The action `_post_init` builds from `argsDup`. -/
def actDup : ParameterAction :=
  ⟨"act1".toList, some "p1".toList, ["chart1.x".toList, "chart1.y".toList]⟩

/-- Arguments with a target lacking the separator. -/
def argsMalformed : MId → Option (List MId) := fun k =>
  if k = targetsKey then some ["chart1".toList] else none

/-- Arguments with a target whose component lives on another page. -/
def argsForeign : MId → Option (List MId) := fun k =>
  if k = targetsKey then some ["other1.title".toList] else none

/-- Arguments with two well-formed same-page targets. -/
def argsGood : MId → Option (List MId) := fun k =>
  if k = targetsKey
  then some ["chart1.data_frame.country".toList, "chart2.title".toList]
  else none

/-- Arguments whose targets have an empty argument path and an unsupported
argument path. -/
def argsPathless : MId → Option (List MId) := fun k =>
  if k = targetsKey
  then some ["chart1.".toList, "chart2.bogus.path".toList]
  else none

/-- Arguments without a `"targets"` key at all. -/
def argsNone : MId → Option (List MId) := fun _ => none

/-- A concrete callback environment over a trivial page type. -/
def envW : CallbackEnv Unit where
  getPage := fun _ => some ()
  inputsOfFilters := fun _ => []
  inputsOfInteractions := fun _ => []
  inputsOfParameters := fun _ => []

/-! ### Helper lemmas about target parsing -/

theorem hasDot_append_dot (c r : MId) : hasDot (c ++ '.' :: r) = true := by
  induction c with
  | nil => simp [hasDot]
  | cons a as ih => simp [hasDot, ih]

theorem headSegment_append_dot (c r : MId) (hc : hasDot c = false) :
    headSegment (c ++ '.' :: r) = c := by
  induction c with
  | nil => simp [headSegment]
  | cons a as ih =>
    simp only [hasDot, Bool.or_eq_false_iff, decide_eq_false_iff_not] at hc
    simp [headSegment, hc.1, ih hc.2]

theorem headSegment_decomp (t : MId) (h : hasDot t = true) :
    headSegment t ++ '.' :: tailSegment t = t ∧
      hasDot (headSegment t) = false := by
  induction t with
  | nil => simp [hasDot] at h
  | cons c cs ih =>
    by_cases hc : c = '.'
    · subst hc
      simp [headSegment, tailSegment, hasDot]
    · have hcs : hasDot cs = true := by
        simpa [hasDot, hc] using h
      obtain ⟨h1, h2⟩ := ih hcs
      simp [headSegment, tailSegment, hasDot, hc, h1, h2]

/-! ### Helper lemmas about the validation loop -/

theorem validateTargets_eq_none_iff (mm : ModelManager) (p : Option MId) :
    ∀ ts : List MId, validateTargets mm p ts = none ↔
      ∀ t ∈ ts, validateTarget mm p t = none := by
  intro ts
  induction ts with
  | nil => simp [validateTargets]
  | cons t ts ih =>
    cases h : validateTarget mm p t with
    | some e => simp [validateTargets, h]
    | none => simp [validateTargets, h, ih]

theorem postInit_ok_elim (mm : ModelManager) (actionId : MId)
    (arguments : MId → Option (List MId)) (a : ParameterAction)
    (h : ParameterAction.postInit mm actionId arguments = .ok a) :
    arguments targetsKey = some a.targets ∧
      a.page_id = mm.pageOf actionId ∧ a.action_id = actionId ∧
      validateTargets mm (mm.pageOf actionId) a.targets = none := by
  unfold ParameterAction.postInit at h
  cases harg : arguments targetsKey with
  | none => simp [harg] at h
  | some ts =>
    cases hv : validateTargets mm (mm.pageOf actionId) ts with
    | some e => simp [harg, hv] at h
    | none =>
      simp only [harg, hv, Except.ok.injEq] at h
      subst h
      exact ⟨rfl, rfl, rfl, hv⟩

theorem postInit_ok_intro (mm : ModelManager) (actionId : MId)
    (arguments : MId → Option (List MId)) (ts : List MId)
    (hts : arguments targetsKey = some ts)
    (hv : validateTargets mm (mm.pageOf actionId) ts = none) :
    ParameterAction.postInit mm actionId arguments =
      .ok ⟨actionId, mm.pageOf actionId, ts⟩ := by
  simp only [ParameterAction.postInit, hts, hv]

/-! ### Helper lemmas about the dict model -/

theorem pydictInsert_map_fst_of_mem {κ ν : Type} [DecidableEq κ] (k : κ)
    (v : ν) : ∀ d : List (κ × ν), k ∈ d.map Prod.fst →
      (pydictInsert d k v).map Prod.fst = d.map Prod.fst := by
  intro d
  induction d with
  | nil => simp
  | cons p d ih =>
    obtain ⟨k', v'⟩ := p
    intro h
    by_cases hk : k' = k
    · simp [pydictInsert, hk]
    · have hm : k ∈ d.map Prod.fst := by
        simpa [Ne.symm hk] using h
      simp [pydictInsert, hk, ih hm]

theorem pydictInsert_map_fst_of_not_mem {κ ν : Type} [DecidableEq κ] (k : κ)
    (v : ν) : ∀ d : List (κ × ν), k ∉ d.map Prod.fst →
      (pydictInsert d k v).map Prod.fst = d.map Prod.fst ++ [k] := by
  intro d
  induction d with
  | nil => simp [pydictInsert]
  | cons p d ih =>
    obtain ⟨k', v'⟩ := p
    intro h
    simp only [List.map_cons, List.mem_cons] at h
    push_neg at h
    simp [pydictInsert, Ne.symm h.1, ih h.2]

theorem distinctFirstFrom_congr {κ : Type} [DecidableEq κ] :
    ∀ (xs s₁ s₂ : List κ), (∀ y, y ∈ s₁ ↔ y ∈ s₂) →
      distinctFirstFrom s₁ xs = distinctFirstFrom s₂ xs := by
  intro xs
  induction xs with
  | nil => intro s₁ s₂ _; simp [distinctFirstFrom]
  | cons x xs ih =>
    intro s₁ s₂ hs
    by_cases hx : x ∈ s₁
    · rw [distinctFirstFrom, distinctFirstFrom, if_pos hx,
        if_pos ((hs x).1 hx)]
      exact ih s₁ s₂ hs
    · rw [distinctFirstFrom, distinctFirstFrom, if_neg hx,
        if_neg (fun h => hx ((hs x).2 h))]
      exact congrArg (x :: ·) (ih (x :: s₁) (x :: s₂) (by
        intro y
        simp [hs y]))

theorem pydict_fold_map_fst {κ ν : Type} [DecidableEq κ] (F : κ → ν) :
    ∀ (ids : List κ) (d : List (κ × ν)),
      ((ids.foldl (fun d x => pydictInsert d x (F x)) d).map Prod.fst) =
        d.map Prod.fst ++ distinctFirstFrom (d.map Prod.fst) ids := by
  intro ids
  induction ids with
  | nil => intro d; simp [distinctFirstFrom]
  | cons x xs ih =>
    intro d
    by_cases hx : x ∈ d.map Prod.fst
    · rw [List.foldl_cons, ih (pydictInsert d x (F x)),
        pydictInsert_map_fst_of_mem x (F x) d hx,
        distinctFirstFrom, if_pos hx]
    · rw [List.foldl_cons, ih (pydictInsert d x (F x)),
        pydictInsert_map_fst_of_not_mem x (F x) d hx,
        distinctFirstFrom, if_neg hx,
        distinctFirstFrom_congr xs (d.map Prod.fst ++ [x])
          (x :: d.map Prod.fst) (by intro y; simp [or_comm]),
        List.append_assoc]
      simp

theorem pydictInsert_entries {κ ν : Type} [DecidableEq κ] (F : κ → ν)
    (k : κ) : ∀ d : List (κ × ν), (∀ p ∈ d, p.2 = F p.1) →
      ∀ p ∈ pydictInsert d k (F k), p.2 = F p.1 := by
  intro d
  induction d with
  | nil =>
    intro _ p hp
    simp only [pydictInsert, List.mem_singleton] at hp
    subst hp; rfl
  | cons q d ih =>
    obtain ⟨k', v'⟩ := q
    intro hd p hp
    by_cases hk : k' = k
    · subst hk
      simp only [pydictInsert, if_true, eq_self_iff_true,
        List.mem_cons] at hp
      rcases hp with h1 | h1
      · subst h1; rfl
      · exact hd p (List.mem_cons_of_mem _ h1)
    · simp only [pydictInsert, if_neg hk, List.mem_cons] at hp
      rcases hp with h1 | h1
      · subst h1; exact hd (k', v') (List.mem_cons_self _ _)
      · exact ih (fun q hq => hd q (List.mem_cons_of_mem _ hq)) p h1

theorem pydict_fold_entries {κ ν : Type} [DecidableEq κ] (F : κ → ν) :
    ∀ (ids : List κ) (d : List (κ × ν)), (∀ p ∈ d, p.2 = F p.1) →
      ∀ p ∈ ids.foldl (fun d x => pydictInsert d x (F x)) d,
        p.2 = F p.1 := by
  intro ids
  induction ids with
  | nil => intro d hd p hp; exact hd p hp
  | cons x xs ih =>
    intro d hd p hp
    exact ih (pydictInsert d x (F x)) (pydictInsert_entries F x d hd) p hp

theorem no_build_of_validateTarget_some (mm : ModelManager) (actionId : MId)
    (arguments : MId → Option (List MId)) (ts : List MId) (t : MId)
    (e : PyError) (hts : arguments targetsKey = some ts) (hmem : t ∈ ts)
    (hvt : validateTarget mm (mm.pageOf actionId) t = some e) :
    ∀ a : ParameterAction,
      ParameterAction.postInit mm actionId arguments ≠ .ok a := by
  intro a hok
  obtain ⟨harg, _hpage, _hid, hnone⟩ :=
    postInit_ok_elim mm actionId arguments a hok
  have hta : ts = a.targets := by
    rw [hts] at harg
    exact Option.some.inj harg
  have hvn : validateTarget mm (mm.pageOf actionId) t = none :=
    (validateTargets_eq_none_iff mm (mm.pageOf actionId) a.targets).1 hnone t
      (hta ▸ hmem)
  rw [hvt] at hvn
  exact Option.noConfusion hvn

/-! ### The claims -/

/-- C2: a target string without a separator makes the per-target check of
the `_post_init` validation loop raise the malformed-target `ValueError`,
and no action whose target list contains such a string is ever built. -/
theorem c2_malformed_target_blocks_construction (mm : ModelManager)
    (actionId : MId) (arguments : MId → Option (List MId)) (ts : List MId)
    (t : MId) (hts : arguments targetsKey = some ts) (hmem : t ∈ ts)
    (hdot : hasDot t = false) :
    validateTarget mm (mm.pageOf actionId) t =
      some (.valueMalformed t) ∧
    ∀ a : ParameterAction,
      ParameterAction.postInit mm actionId arguments ≠ .ok a := by
  have hvt : validateTarget mm (mm.pageOf actionId) t =
      some (.valueMalformed t) := by
    simp [validateTarget, hdot]
  exact ⟨hvt, no_build_of_validateTarget_some mm actionId arguments ts t _
    hts hmem hvt⟩

theorem c2_witness :
    (argsMalformed targetsKey = some ["chart1".toList] ∧
      "chart1".toList ∈ ["chart1".toList] ∧
      hasDot "chart1".toList = false) ∧
    (validateTarget mmW (mmW.pageOf "act1".toList) "chart1".toList =
        some (.valueMalformed "chart1".toList) ∧
      ∀ a : ParameterAction,
        ParameterAction.postInit mmW "act1".toList argsMalformed ≠
          .ok a) :=
  ⟨⟨by decide, by decide, by decide⟩,
    c2_malformed_target_blocks_construction mmW "act1".toList argsMalformed
      ["chart1".toList] "chart1".toList (by decide) (by decide) (by decide)⟩

/-- C3: a target whose component-id segment the registry places on a page
other than the action's bound page makes the per-target check raise the
`ValueError` naming that component id and the action's page, and no such
action is ever built. -/
theorem c3_foreign_target_blocks_construction (mm : ModelManager)
    (actionId : MId) (arguments : MId → Option (List MId)) (ts : List MId)
    (t : MId) (p1 p2 : MId) (hts : arguments targetsKey = some ts)
    (hmem : t ∈ ts) (hdot : hasDot t = true)
    (hpage : mm.pageOf actionId = some p1)
    (htarget : mm.pageOf (headSegment t) = some p2) (hne : p1 ≠ p2) :
    validateTarget mm (mm.pageOf actionId) t =
      some (.valueForeign (headSegment t) (some p1)) ∧
    ∀ a : ParameterAction,
      ParameterAction.postInit mm actionId arguments ≠ .ok a := by
  have hvt : validateTarget mm (mm.pageOf actionId) t =
      some (.valueForeign (headSegment t) (some p1)) := by
    rw [validateTarget, hpage, htarget]
    simp [hdot, hne]
  exact ⟨hvt, no_build_of_validateTarget_some mm actionId arguments ts t _
    hts hmem hvt⟩

theorem c3_witness :
    (argsForeign targetsKey = some ["other1.title".toList] ∧
      "other1.title".toList ∈ ["other1.title".toList] ∧
      hasDot "other1.title".toList = true ∧
      mmW.pageOf "act1".toList = some "p1".toList ∧
      mmW.pageOf (headSegment "other1.title".toList) = some "p2".toList ∧
      "p1".toList ≠ "p2".toList) ∧
    (validateTarget mmW (mmW.pageOf "act1".toList) "other1.title".toList =
        some (.valueForeign (headSegment "other1.title".toList)
          (some "p1".toList)) ∧
      ∀ a : ParameterAction,
        ParameterAction.postInit mmW "act1".toList argsForeign ≠ .ok a) :=
  ⟨⟨by decide, by decide, by decide, by decide, by decide, by decide⟩,
    c3_foreign_target_blocks_construction mmW "act1".toList argsForeign
      ["other1.title".toList] "other1.title".toList "p1".toList "p2".toList
      (by decide) (by decide) (by decide) (by decide) (by decide)
      (by decide)⟩

/-- C4: when every target string has a separator and its component-id
segment is owned by the action's page, `_post_init` succeeds, stores the
targets in input order, and each target decomposes as the dot-free
component id before the first separator plus the argument-path
remainder. -/
theorem c4_valid_targets_resolve_in_order (mm : ModelManager)
    (actionId : MId) (arguments : MId → Option (List MId)) (ts : List MId)
    (hts : arguments targetsKey = some ts)
    (hvalid : ∀ t ∈ ts, hasDot t = true ∧
      mm.pageOf (headSegment t) = mm.pageOf actionId) :
    ParameterAction.postInit mm actionId arguments =
      .ok ⟨actionId, mm.pageOf actionId, ts⟩ ∧
    ∀ t ∈ ts, (parseTarget t).1 ++ '.' :: (parseTarget t).2 = t ∧
      hasDot (parseTarget t).1 = false := by
  constructor
  · apply postInit_ok_intro mm actionId arguments ts hts
    rw [validateTargets_eq_none_iff]
    intro t ht
    obtain ⟨hdot, hp⟩ := hvalid t ht
    simp [validateTarget, hdot, hp]
  · intro t ht
    simpa [parseTarget] using headSegment_decomp t (hvalid t ht).1

theorem c4_witness :
    (argsGood targetsKey =
        some ["chart1.data_frame.country".toList, "chart2.title".toList] ∧
      ∀ t ∈ ["chart1.data_frame.country".toList, "chart2.title".toList],
        hasDot t = true ∧
        mmW.pageOf (headSegment t) = mmW.pageOf "act1".toList) ∧
    (ParameterAction.postInit mmW "act1".toList argsGood =
        .ok ⟨"act1".toList, mmW.pageOf "act1".toList,
          ["chart1.data_frame.country".toList, "chart2.title".toList]⟩ ∧
      ∀ t ∈ ["chart1.data_frame.country".toList, "chart2.title".toList],
        (parseTarget t).1 ++ '.' :: (parseTarget t).2 = t ∧
        hasDot (parseTarget t).1 = false) :=
  ⟨⟨by decide, by decide⟩,
    c4_valid_targets_resolve_in_order mmW "act1".toList argsGood
      ["chart1.data_frame.country".toList, "chart2.title".toList]
      (by decide) (by decide)⟩

/-- C9: `_post_init` validates only the component-id segment of each
target: any target of the form `component ++ "." ++ remainder` whose
component is on the action's page passes validation whatever the remainder
is — an empty argument path or one the component does not support included;
no argument-path check happens at construction. -/
theorem c9_argument_path_not_validated (mm : ModelManager) (actionId : MId)
    (arguments : MId → Option (List MId)) (ts : List MId)
    (hts : arguments targetsKey = some ts)
    (hform : ∀ t ∈ ts, ∃ c r, t = c ++ '.' :: r ∧ hasDot c = false ∧
      mm.pageOf c = mm.pageOf actionId) :
    ParameterAction.postInit mm actionId arguments =
      .ok ⟨actionId, mm.pageOf actionId, ts⟩ := by
  apply postInit_ok_intro mm actionId arguments ts hts
  rw [validateTargets_eq_none_iff]
  intro t ht
  obtain ⟨c, r, rfl, hc, hp⟩ := hform t ht
  simp [validateTarget, hasDot_append_dot, headSegment_append_dot c r hc, hp]

theorem c9_witness :
    (argsPathless targetsKey =
        some ["chart1.".toList, "chart2.bogus.path".toList] ∧
      ∀ t ∈ ["chart1.".toList, "chart2.bogus.path".toList],
        ∃ c r, t = c ++ '.' :: r ∧ hasDot c = false ∧
          mmW.pageOf c = mmW.pageOf "act1".toList) ∧
    ParameterAction.postInit mmW "act1".toList argsPathless =
      .ok ⟨"act1".toList, mmW.pageOf "act1".toList,
        ["chart1.".toList, "chart2.bogus.path".toList]⟩ :=
  have hform : ∀ t ∈ ["chart1.".toList, "chart2.bogus.path".toList],
      ∃ c r, t = c ++ '.' :: r ∧ hasDot c = false ∧
        mmW.pageOf c = mmW.pageOf "act1".toList := by
    intro t ht
    simp only [List.mem_cons, List.not_mem_nil, or_false] at ht
    rcases ht with rfl | rfl
    · exact ⟨"chart1".toList, [], by decide, by decide, by decide⟩
    · exact ⟨"chart2".toList, "bogus.path".toList, by decide, by decide,
        by decide⟩
  ⟨⟨by decide, hform⟩,
    c9_argument_path_not_validated mmW "act1".toList argsPathless
      ["chart1.".toList, "chart2.bogus.path".toList] (by decide) hform⟩

/-- C10: when `self._arguments` holds no `"targets"` key, `.get` returns
`None`, iterating it raises a `TypeError`, so `_post_init` always fails and
never treats the missing key as an empty target list. -/
theorem c10_missing_targets_key_fails (mm : ModelManager) (actionId : MId)
    (arguments : MId → Option (List MId))
    (hnone : arguments targetsKey = none) :
    ParameterAction.postInit mm actionId arguments =
      .error .typeNoneNotIterable ∧
    ∀ a : ParameterAction,
      ParameterAction.postInit mm actionId arguments ≠ .ok a := by
  have h : ParameterAction.postInit mm actionId arguments =
      .error .typeNoneNotIterable := by
    simp only [ParameterAction.postInit, hnone]
  refine ⟨h, fun a hok => ?_⟩
  rw [h] at hok
  exact Except.noConfusion hok

theorem c10_witness :
    argsNone targetsKey = none ∧
    (ParameterAction.postInit mmW "act1".toList argsNone =
        .error .typeNoneNotIterable ∧
      ∀ a : ParameterAction,
        ParameterAction.postInit mmW "act1".toList argsNone ≠ .ok a) :=
  ⟨rfl, c10_missing_targets_key_fails mmW "act1".toList argsNone rfl⟩

/-- C1 counterexample: an action built from the validated target list
`["chart1.x", "chart1.y"]` has two targets, yet its `outputs` dict has a
single entry: the dict comprehension keyed by component id deduplicates
duplicate target ids, so the descriptor count is not the target count. -/
theorem c1_counterexample :
    ParameterAction.postInit mmW "act1".toList argsDup = .ok actDup ∧
    actDup.targets.length = 2 ∧ (actDup.outputs mmW).length = 1 := by
  decide

/-- C1 amended: `outputs` produces exactly one descriptor per distinct
resolved target component id, keyed by component id in order of first
occurrence; duplicate target ids collapse into a single descriptor. -/
theorem c1_outputs_one_per_distinct_target (mm : ModelManager)
    (a : ParameterAction) :
    (a.outputs mm).map Prod.fst =
      distinctFirst (a.targets.map headSegment) := by
  unfold ParameterAction.outputs pydictOfList distinctFirst
  simpa using pydict_fold_map_fst
    (fun t => (⟨t, mm.outputPropOf t, true⟩ : Output))
    (a.targets.map headSegment) []

/-- C6: every entry of the `outputs` dict maps a component id to a
descriptor naming that same component id, the
`_output_component_property` looked up on the registered component
instance, and the `allow_duplicate=True` flag. -/
theorem c6_output_descriptor_fields (mm : ModelManager)
    (a : ParameterAction) :
    ∀ p ∈ a.outputs mm, p.2.component_id = p.1 ∧
      p.2.component_property = mm.outputPropOf p.1 ∧
      p.2.allow_duplicate = true := by
  intro p hp
  have hmem : p ∈ (a.targets.map headSegment).foldl
      (fun d x => pydictInsert d x
        ((fun t => (⟨t, mm.outputPropOf t, true⟩ : Output)) x)) [] := by
    simpa [ParameterAction.outputs, pydictOfList] using hp
  have h := pydict_fold_entries
    (fun t => (⟨t, mm.outputPropOf t, true⟩ : Output))
    (a.targets.map headSegment) [] (by simp) p hmem
  rw [h]
  exact ⟨rfl, rfl, rfl⟩

theorem c6_witness :
    ("chart1".toList,
      (⟨"chart1".toList, "figure".toList, true⟩ : Output)) ∈
        actDup.outputs mmW ∧
    ((⟨"chart1".toList, "figure".toList, true⟩ : Output).component_id =
        "chart1".toList ∧
      (⟨"chart1".toList, "figure".toList, true⟩ :
          Output).component_property =
        mmW.outputPropOf "chart1".toList ∧
      (⟨"chart1".toList, "figure".toList, true⟩ :
          Output).allow_duplicate = true) :=
  ⟨by decide, c6_output_descriptor_fields mmW actDup
    ("chart1".toList, ⟨"chart1".toList, "figure".toList, true⟩)
    (by decide)⟩

/-- C5: when the action's page resolves from the registry, the `inputs`
property returns the dict with exactly the four fixed keys `filters`,
`filter_interaction`, `parameters` and `theme_selector`, whatever the
page's contents contribute as values. -/
theorem c5_inputs_four_fixed_keys {Page : Type} (env : CallbackEnv Page)
    (a : ParameterAction) (page : Page)
    (hpage : env.getPage a.page_id = some page) :
    ∃ l, a.inputs env = .ok l ∧ l.map Prod.fst =
      ["filters".toList, "filter_interaction".toList, "parameters".toList,
        "theme_selector".toList] := by
  have h : a.inputs env =
      .ok [("filters".toList, .many (env.inputsOfFilters page)),
        ("filter_interaction".toList,
          .many (env.inputsOfInteractions page)),
        ("parameters".toList, .many (env.inputsOfParameters page)),
        ("theme_selector".toList, .single ⟨"theme_selector".toList,
          "checked".toList⟩)] := by
    unfold ParameterAction.inputs
    rw [hpage]
  exact ⟨_, h, rfl⟩

theorem c5_witness :
    envW.getPage actDup.page_id = some () ∧
    ∃ l, actDup.inputs envW = .ok l ∧ l.map Prod.fst =
      ["filters".toList, "filter_interaction".toList, "parameters".toList,
        "theme_selector".toList] :=
  ⟨rfl, c5_inputs_four_fixed_keys envW actDup () rfl⟩

/-- C7: every target-validation check runs inside `_post_init`, so a
successfully built action has only targets the per-target check accepts;
`pure_function` merely re-splits the target strings and delegates, so an
invocation of a built action surfaces a target-validation error only if the
delegate `_get_modified_page_figures` (whose errors, per the spec, are
recomputation errors) were to produce one. -/
theorem c7_validation_eager_not_at_invocation (mm : ModelManager)
    (actionId : MId) (arguments : MId → Option (List MId))
    (a : ParameterAction)
    (hok : ParameterAction.postInit mm actionId arguments = .ok a) :
    (∀ t ∈ a.targets, validateTarget mm a.page_id t = none) ∧
    ∀ {γ δ β : Type}
      (getModified : List MId → γ → γ → γ → Except PyError β)
      (inputs : List (MId × δ)) (ctx : ArgsGrouping γ),
      (∀ ids f fi pa e, getModified ids f fi pa = .error e →
        e.isTargetValidation = false) →
      ∀ e, ParameterAction.pure_function getModified a.targets inputs ctx =
        .error e → e.isTargetValidation = false := by
  obtain ⟨_harg, hpage, _hid, hnone⟩ :=
    postInit_ok_elim mm actionId arguments a hok
  constructor
  · intro t ht
    rw [hpage]
    exact (validateTargets_eq_none_iff mm (mm.pageOf actionId)
      a.targets).1 hnone t ht
  · intro γ δ β getModified inputs ctx hgm e he
    exact hgm _ _ _ _ e he

theorem c7_witness :
    ParameterAction.postInit mmW "act1".toList argsDup = .ok actDup ∧
    ((∀ t ∈ actDup.targets,
        validateTarget mmW actDup.page_id t = none) ∧
      ∀ {γ δ β : Type}
        (getModified : List MId → γ → γ → γ → Except PyError β)
        (inputs : List (MId × δ)) (ctx : ArgsGrouping γ),
        (∀ ids f fi pa e, getModified ids f fi pa = .error e →
          e.isTargetValidation = false) →
        ∀ e, ParameterAction.pure_function getModified actDup.targets
          inputs ctx = .error e → e.isTargetValidation = false) :=
  ⟨by decide, c7_validation_eager_not_at_invocation mmW "act1".toList
    argsDup actDup (by decide)⟩

/-- C8: `pure_function` is a function of the target list and the grouped
values read from the callback context alone: two invocations with the same
targets and grouped values return the same output mapping, whatever keyword
arguments each received, with no other state influencing the result. -/
theorem c8_pure_function_deterministic {γ δ₁ δ₂ ρ : Type}
    (getModified : List MId → γ → γ → γ → ρ) (targets : List MId)
    (inputs₁ : List (MId × δ₁)) (inputs₂ : List (MId × δ₂))
    (ctx : ArgsGrouping γ) :
    ParameterAction.pure_function getModified targets inputs₁ ctx =
      ParameterAction.pure_function getModified targets inputs₂ ctx := rfl

end Vizro
